import Mathlib

/-!
Verification of the MPK-striped pooling memory allocator.

This file shallowly embeds the core of the allocator:
`crates/runtime/src/instance/allocator/pooling/memory_pool.rs` (the slab
layout calculator `calculate`, the striped index conversions, stripe
construction in `MemoryPool::new`, `validate`, `allocate`/`deallocate`
slot bookkeeping) and `crates/runtime/src/mpk.rs` (`keys`, `Pkey::activate`).

Rust `usize` values are modelled as `Nat` together with an explicit bound
`usizeMax = 2 ^ 64 - 1`; `checked_add`/`checked_mul`/`checked_sub` become
`Option`-valued operations, and the unchecked arithmetic the source performs
on `usize`/`u32` is modelled with explicit wrap-around (`% 2 ^ 64`,
`% 2 ^ 32`), matching release-build semantics.
-/

namespace MemPool

/-- Largest value of a 64-bit `usize`. -/
def usizeMax : Nat := 2 ^ 64 - 1

/-- Wrapping 64-bit addition (Rust release-mode `+` on `usize`). -/
def wadd (a b : Nat) : Nat := (a + b) % 2 ^ 64

/-- Wrapping 64-bit subtraction (Rust release-mode `-` on `usize`). -/
def wsub (a b : Nat) : Nat := (a + 2 ^ 64 - b % 2 ^ 64) % 2 ^ 64

/-- Rust `usize::checked_add`. -/
def checkedAdd (a b : Nat) : Option Nat :=
  if a + b ≤ usizeMax then some (a + b) else none

/-- Rust `usize::checked_mul`. -/
def checkedMul (a b : Nat) : Option Nat :=
  if a * b ≤ usizeMax then some (a * b) else none

/-- Rust `usize::checked_sub`. -/
def checkedSub (a b : Nat) : Option Nat :=
  if b ≤ a then some (a - b) else none

/-- Input of the slab layout calculator (struct `SlabConstraints`). -/
structure SlabConstraints where
  max_memory_bytes : Nat
  num_memory_slots : Nat
  num_pkeys_available : Nat
  guard_bytes : Nat
  guard_before_slots : Bool
deriving DecidableEq, Repr

/-- Output of the slab layout calculator (struct `SlabLayout`). -/
structure SlabLayout where
  total_slab_bytes : Nat
  pre_slab_guard_bytes : Nat
  post_slab_guard_bytes : Nat
  slot_bytes : Nat
  num_stripes : Nat
deriving DecidableEq, Repr

/-- The `needed_num_stripes` binding inside `calculate` (memory_pool.rs
lines 567-568): `guard_bytes / max_memory_bytes +
usize::from(guard_bytes % max_memory_bytes != 0) + 1`, with the source's
unchecked `usize` additions modelled as wrapping additions. -/
def neededNumStripes (c : SlabConstraints) : Nat :=
  wadd (wadd (c.guard_bytes / c.max_memory_bytes)
    (if c.guard_bytes % c.max_memory_bytes ≠ 0 then 1 else 0)) 1

/-- The `num_stripes` binding of the striped branch of `calculate`:
`num_pkeys_available.min(needed_num_stripes)`. -/
def stripedNumStripes (c : SlabConstraints) : Nat :=
  min c.num_pkeys_available (neededNumStripes c)

/-- The `next_slots_overlapping_bytes` binding of the striped branch:
`max_memory_bytes.checked_mul(num_stripes - 1).unwrap_or(usize::MAX)`,
where `num_stripes - 1` is an unchecked (wrapping) `usize` subtraction. -/
def stripedOverlapBytes (c : SlabConstraints) : Nat :=
  (checkedMul c.max_memory_bytes (wsub (stripedNumStripes c) 1)).getD usizeMax

/-- The `needed_guard_bytes` binding of the striped branch:
`guard_bytes.checked_sub(next_slots_overlapping_bytes).unwrap_or(0)`. -/
def stripedNeededGuard (c : SlabConstraints) : Nat :=
  (checkedSub c.guard_bytes (stripedOverlapBytes c)).getD 0

/-- The `(num_stripes, needed_guard_bytes)` computation inside `calculate`
(memory_pool.rs lines 543-577). -/
def numStripesAndGuard (c : SlabConstraints) : Nat × Nat :=
  if c.guard_bytes = 0 ∨ c.max_memory_bytes = 0 then
    (1, c.guard_bytes)
  else if c.num_pkeys_available < 2 then
    (1, c.guard_bytes)
  else
    (stripedNumStripes c, stripedNeededGuard c)

/-- The slab layout calculator (function `calculate`, memory_pool.rs lines
527-611), parametrised by the ambient OS page size returned by
`crate::page_size()`.  The page rounding `slot_bytes & !page_alignment` is
the 64-bit bitwise AND with the complement of `page_alignment`, i.e. with
`usizeMax - page_alignment`. -/
def calculate (pageSize : Nat) (c : SlabConstraints) : Except String SlabLayout :=
  let pre_slab_guard_bytes := if c.guard_before_slots then c.guard_bytes else 0
  let sg := numStripesAndGuard c
  let num_stripes := sg.1
  let needed_guard_bytes := sg.2
  let page_alignment := pageSize - 1
  match checkedAdd c.max_memory_bytes needed_guard_bytes with
  | none => Except.error "slot size is too large"
  | some s1 =>
    match checkedAdd s1 page_alignment with
    | none => Except.error "slot size is too large"
    | some s2 =>
      let slot_bytes := s2 &&& (usizeMax - page_alignment)
      let post_slab_guard_bytes := wsub c.guard_bytes needed_guard_bytes
      match checkedMul slot_bytes c.num_memory_slots with
      | none => Except.error "total size of memory reservation exceeds addressable memory"
      | some t1 =>
        match checkedAdd t1 pre_slab_guard_bytes with
        | none => Except.error "total size of memory reservation exceeds addressable memory"
        | some t2 =>
          match checkedAdd t2 post_slab_guard_bytes with
          | none => Except.error "total size of memory reservation exceeds addressable memory"
          | some total_slab_bytes =>
            Except.ok
              { total_slab_bytes := total_slab_bytes
                pre_slab_guard_bytes := pre_slab_guard_bytes
                post_slab_guard_bytes := post_slab_guard_bytes
                slot_bytes := slot_bytes
                num_stripes := num_stripes }

example :
    calculate 4096 ⟨655360, 4, 3, 131072, false⟩ =
      Except.ok ⟨2752512, 0, 131072, 655360, 2⟩ := by rfl

example :
    calculate 4096 ⟨65536, 5, 0, 0, false⟩ =
      Except.ok ⟨327680, 0, 0, 65536, 1⟩ := by rfl

example : ∃ e, calculate 4096 ⟨usizeMax, 0, 5, usizeMax, false⟩ = Except.error e :=
  ⟨"slot size is too large", by rfl⟩

/-- Bitwise AND with the complement of a low bit mask rounds down to a
multiple of `2 ^ k`: this is the semantics of `slot_bytes & !page_alignment`
for a power-of-two page size. -/
theorem and_align (k y : Nat) (hk : k ≤ 64) (hy : y ≤ usizeMax) :
    y &&& (usizeMax - (2 ^ k - 1)) = y - y % 2 ^ k := by
  have hpow : (2 : Nat) ^ k ≤ 2 ^ 64 := Nat.pow_le_pow_right (by omega) hk
  have hmask : usizeMax - (2 ^ k - 1) = (2 ^ (64 - k) - 1) <<< k := by
    rw [Nat.shiftLeft_eq]
    have h1 : (2 : Nat) ^ (64 - k) * 2 ^ k = 2 ^ 64 := by
      rw [← pow_add]
      congr 1
      omega
    have h2 : (1 : Nat) ≤ 2 ^ (64 - k) := Nat.one_le_two_pow
    have h3 : (1 : Nat) ≤ 2 ^ k := Nat.one_le_two_pow
    rw [Nat.sub_mul, h1, usizeMax]
    omega
  have hdm := Nat.div_add_mod y (2 ^ k)
  have hval : y - y % 2 ^ k = (y >>> k) <<< k := by
    rw [Nat.shiftRight_eq_div_pow, Nat.shiftLeft_eq, Nat.mul_comm]
    omega
  rw [hmask, hval]
  apply Nat.eq_of_testBit_eq
  intro i
  rw [Nat.testBit_land]
  by_cases hik : k ≤ i
  · by_cases hi64 : i < 64
    · have hki : k + (i - k) = i := by omega
      simp [Nat.testBit_shiftLeft, Nat.testBit_shiftRight, hik, hki,
        (by omega : i - k < 64 - k)]
    · have hyf : y.testBit i = false := by
        apply Nat.testBit_lt_two_pow
        calc y ≤ usizeMax := hy
          _ < 2 ^ 64 := by simp [usizeMax]
          _ ≤ 2 ^ i := Nat.pow_le_pow_right (by omega) (by omega)
      simp [Nat.testBit_shiftLeft, Nat.testBit_shiftRight, hyf, hik,
        (by omega : ¬ i - k < 64 - k)]
  · simp [Nat.testBit_shiftLeft, hik]

/-- Wrapping subtraction agrees with truncated subtraction when the
minuend is a `usize` value at least as large as the subtrahend. -/
theorem wsub_eq_sub (a b : Nat) (hb : b ≤ a) (ha : a ≤ usizeMax) :
    wsub a b = a - b := by
  unfold wsub
  have h1 : b % 2 ^ 64 = b := Nat.mod_eq_of_lt (by unfold usizeMax at ha; omega)
  rw [h1]
  have h2 : a + 2 ^ 64 - b = (a - b) + 2 ^ 64 := by omega
  rw [h2, Nat.add_mod_right]
  exact Nat.mod_eq_of_lt (by unfold usizeMax at ha; omega)

/-- Wrapping addition agrees with addition below `2 ^ 64`. -/
theorem wadd_eq_add (a b : Nat) (h : a + b < 2 ^ 64) : wadd a b = a + b :=
  Nat.mod_eq_of_lt h

/-- Value and bound extracted from a successful `checked_add`. -/
theorem checkedAdd_some (a b v : Nat) (h : checkedAdd a b = some v) :
    v = a + b ∧ a + b ≤ usizeMax := by
  unfold checkedAdd at h
  split at h <;> simp_all

/-- Value and bound extracted from a successful `checked_mul`. -/
theorem checkedMul_some (a b v : Nat) (h : checkedMul a b = some v) :
    v = a * b ∧ a * b ≤ usizeMax := by
  unfold checkedMul at h
  split at h <;> simp_all

/-- A failing `checked_mul` means the product overflows `usize`. -/
theorem checkedMul_none (a b : Nat) (h : checkedMul a b = none) :
    usizeMax < a * b := by
  unfold checkedMul at h
  split at h <;> simp_all

/-- The `checked_sub(..).unwrap_or(0)` idiom is truncated subtraction. -/
theorem checkedSub_getD_zero (a b : Nat) : (checkedSub a b).getD 0 = a - b := by
  unfold checkedSub
  split
  · simp
  · simp
    omega

/-- The ceiling-division-plus-one sum computed for `needed_num_stripes`
never reaches `2 ^ 64`, so only its final `+ 1` can wrap. -/
theorem div_ceil_lt (g m : Nat) (hg : g ≤ usizeMax) (hm : 1 ≤ m) :
    g / m + (if g % m ≠ 0 then 1 else 0) < 2 ^ 64 := by
  have hq : g / m ≤ g := Nat.div_le_self _ _
  by_cases hc : g % m ≠ 0
  · rw [if_pos hc]
    by_cases hm1 : m = 1
    · subst hm1
      exact absurd (Nat.mod_one g) hc
    · have hm2 : 2 ≤ m := by omega
      have h2 : g / m ≤ g / 2 := Nat.div_le_div_left hm2 (by omega)
      have h3 : g / 2 ≤ usizeMax / 2 := Nat.div_le_div_right hg
      have h4 : usizeMax / 2 < usizeMax := by unfold usizeMax; omega
      unfold usizeMax at *
      omega
  · rw [if_neg hc]
    unfold usizeMax at *
    omega

/-- Key guard-overlap inequality: whenever the striped-branch computation
yields more than one stripe and the eventual slot size covers
`max_memory_bytes + needed_guard_bytes`, the slots of the other stripes
cover the requested guard region. -/
theorem stripe_guard_key (c : SlabConstraints) (slot : Nat)
    (hg : c.guard_bytes ≤ usizeMax)
    (hS : 1 < (numStripesAndGuard c).1)
    (hslot : c.max_memory_bytes + (numStripesAndGuard c).2 ≤ slot) :
    c.guard_bytes ≤ slot * ((numStripesAndGuard c).1 - 1) := by
  by_cases h1 : c.guard_bytes = 0 ∨ c.max_memory_bytes = 0
  · simp [numStripesAndGuard, h1] at hS
  by_cases h2 : c.num_pkeys_available < 2
  · simp [numStripesAndGuard, h1, h2] at hS
  rw [numStripesAndGuard, if_neg h1, if_neg h2] at hS hslot ⊢
  dsimp only at hS hslot ⊢
  have hm1 : 1 ≤ c.max_memory_bytes := by
    push_neg at h1
    omega
  have hqcb := div_ceil_lt c.guard_bytes c.max_memory_bytes hg hm1
  set q := c.guard_bytes / c.max_memory_bytes with hq
  set cb := (if c.guard_bytes % c.max_memory_bytes ≠ 0 then 1 else 0) with hcb
  have hnw : neededNumStripes c = wadd (q + cb) 1 := by
    rw [neededNumStripes, wadd_eq_add _ _ hqcb]
  by_cases hwrap : q + cb = usizeMax
  · have h0 : neededNumStripes c = 0 := by
      rw [hnw, hwrap, wadd]
      simp [usizeMax]
    rw [stripedNumStripes, h0] at hS
    simp at hS
  · have hnwv : neededNumStripes c = q + cb + 1 := by
      rw [hnw]
      apply wadd_eq_add
      unfold usizeMax at hwrap
      omega
    have hSle : stripedNumStripes c ≤ usizeMax := by
      have := min_le_right c.num_pkeys_available (neededNumStripes c)
      rw [hnwv] at this
      unfold stripedNumStripes
      rw [hnwv]
      unfold usizeMax at *
      omega
    have hS2 : 2 ≤ stripedNumStripes c := hS
    have hwsub : wsub (stripedNumStripes c) 1 = stripedNumStripes c - 1 :=
      wsub_eq_sub _ _ (by omega) hSle
    rw [stripedNeededGuard, stripedOverlapBytes, hwsub] at hslot
    cases hmul : checkedMul c.max_memory_bytes (stripedNumStripes c - 1) with
    | none =>
      have hbig := checkedMul_none _ _ hmul
      rw [hmul] at hslot
      rw [checkedSub_getD_zero] at hslot
      simp only [Option.getD_none] at hslot
      have hng0 : c.guard_bytes - usizeMax = 0 := by omega
      have hms : c.max_memory_bytes ≤ slot := by omega
      have hmono : c.max_memory_bytes * (stripedNumStripes c - 1) ≤
          slot * (stripedNumStripes c - 1) := Nat.mul_le_mul_right _ hms
      omega
    | some v =>
      obtain ⟨hv, hvle⟩ := checkedMul_some _ _ _ hmul
      rw [hmul] at hslot
      simp only [Option.getD_some] at hslot
      rw [checkedSub_getD_zero] at hslot
      have hmono : (c.max_memory_bytes + (c.guard_bytes - v)) * (stripedNumStripes c - 1) ≤
          slot * (stripedNumStripes c - 1) := Nat.mul_le_mul_right _ hslot
      have hdistr : (c.max_memory_bytes + (c.guard_bytes - v)) * (stripedNumStripes c - 1) =
          c.max_memory_bytes * (stripedNumStripes c - 1) +
            (c.guard_bytes - v) * (stripedNumStripes c - 1) := Nat.add_mul _ _ _
      have hone : (c.guard_bytes - v) * 1 ≤ (c.guard_bytes - v) * (stripedNumStripes c - 1) :=
        Nat.mul_le_mul_left _ (by omega)
      rw [Nat.mul_one] at hone
      rw [← hv] at hdistr
      omega

/-- The page-rounded slot size is at least the unrounded
`max_memory_bytes + needed_guard_bytes` sum. -/
theorem slot_bytes_ge (k y : Nat) (hk : k ≤ 64) (hy : y ≤ usizeMax) :
    y - (2 ^ k - 1) ≤ y &&& (usizeMax - (2 ^ k - 1)) := by
  rw [and_align k y hk hy]
  have h1 : y % 2 ^ k < 2 ^ k := Nat.mod_lt _ (Nat.pos_pow_of_pos _ (by omega))
  omega

/-- Shape of the layout returned by a successful `calculate`: its stripe
count is the one chosen by `numStripesAndGuard`, its slot size is the
page-rounded `max_memory_bytes + needed_guard_bytes` (which did not
overflow), and its trailing guard is `guard_bytes - needed_guard_bytes`. -/
theorem calculate_ok_spec (pageSize : Nat) (c : SlabConstraints) (l : SlabLayout)
    (h : calculate pageSize c = Except.ok l) :
    l.num_stripes = (numStripesAndGuard c).1 ∧
    l.slot_bytes =
      (c.max_memory_bytes + (numStripesAndGuard c).2 + (pageSize - 1)) &&&
        (usizeMax - (pageSize - 1)) ∧
    c.max_memory_bytes + (numStripesAndGuard c).2 + (pageSize - 1) ≤ usizeMax ∧
    l.post_slab_guard_bytes = wsub c.guard_bytes (numStripesAndGuard c).2 := by
  simp only [calculate] at h
  split at h
  · exact Except.noConfusion h
  rename_i s1 hs1
  split at h
  · exact Except.noConfusion h
  rename_i s2 hs2
  split at h
  · exact Except.noConfusion h
  rename_i t1 ht1
  split at h
  · exact Except.noConfusion h
  rename_i t2 ht2
  split at h
  · exact Except.noConfusion h
  rename_i t3 ht3
  obtain ⟨h1a, h1b⟩ := checkedAdd_some _ _ _ hs1
  obtain ⟨h2a, h2b⟩ := checkedAdd_some _ _ _ hs2
  subst h1a
  subst h2a
  have hl := Except.ok.inj h
  subst hl
  exact ⟨rfl, rfl, h2b, rfl⟩

/-- Claim C6: a layout accepted with more than one stripe has the slots of
the other stripes fully covering the requested guard region. -/
theorem calculate_guard_overlap_safe (k : Nat) (c : SlabConstraints) (l : SlabLayout)
    (hk : k ≤ 64) (hg : c.guard_bytes ≤ usizeMax)
    (h : calculate (2 ^ k) c = Except.ok l) (hS : 1 < l.num_stripes) :
    c.guard_bytes ≤ l.slot_bytes * (l.num_stripes - 1) := by
  obtain ⟨hns, hsb, hbound, _⟩ := calculate_ok_spec _ _ _ h
  rw [hns] at hS ⊢
  rw [hsb]
  apply stripe_guard_key c _ hg hS
  have hslot := slot_bytes_ge k
    (c.max_memory_bytes + (numStripesAndGuard c).2 + (2 ^ k - 1)) hk hbound
  omega

/-- Witness for claim C6 at the constraints of the repo's concrete
scenario 3 (three pkeys, sub-slot guard). -/
theorem calculate_guard_overlap_safe_witness :
    (131072 : Nat) ≤ 655360 * (2 - 1) :=
  calculate_guard_overlap_safe 12 ⟨655360, 4, 3, 131072, false⟩
    ⟨2752512, 0, 131072, 655360, 2⟩ (by omega) (by decide)
    (by rfl) (by decide)

/-- Selected `needed_guard_bytes` never exceeds `guard_bytes`, in each of
the three branches of the computation. -/
theorem numStripesAndGuard_snd_le (c : SlabConstraints) :
    (numStripesAndGuard c).2 ≤ c.guard_bytes := by
  by_cases h1 : c.guard_bytes = 0 ∨ c.max_memory_bytes = 0
  · simp [numStripesAndGuard, h1]
  by_cases h2 : c.num_pkeys_available < 2
  · simp [numStripesAndGuard, h1, h2]
  · rw [numStripesAndGuard, if_neg h1, if_neg h2]
    dsimp only
    rw [stripedNeededGuard, checkedSub_getD_zero]
    omega

/-- Claim C10: the `needed_guard_bytes` selected in every branch is at most
`guard_bytes`, so the unchecked `guard_bytes - needed_guard_bytes` cannot
underflow and an accepted layout has `post_slab_guard_bytes ≤ guard_bytes`. -/
theorem calculate_post_guard_le (p : Nat) (c : SlabConstraints) (l : SlabLayout)
    (hg : c.guard_bytes ≤ usizeMax)
    (h : calculate p c = Except.ok l) :
    (numStripesAndGuard c).2 ≤ c.guard_bytes ∧
      l.post_slab_guard_bytes = c.guard_bytes - (numStripesAndGuard c).2 ∧
      l.post_slab_guard_bytes ≤ c.guard_bytes := by
  have hng := numStripesAndGuard_snd_le c
  obtain ⟨_, _, _, hpost⟩ := calculate_ok_spec _ _ _ h
  rw [hpost, wsub_eq_sub _ _ hng hg]
  exact ⟨hng, rfl, by omega⟩

/-- Witness for claim C10 at the same concrete scenario as claim C6. -/
theorem calculate_post_guard_le_witness :
    (0 : Nat) ≤ 131072 ∧ (131072 : Nat) = 131072 - 0 ∧ (131072 : Nat) ≤ 131072 :=
  calculate_post_guard_le 4096 ⟨655360, 4, 3, 131072, false⟩
    ⟨2752512, 0, 131072, 655360, 2⟩ (by decide) (by rfl)

/-- Claim C8: with `max_memory_bytes = usize::MAX` and
`guard_bytes = usize::MAX`, `calculate` rejects the input with a layout
overflow error for every slot count, pkey count and pre-guard flag (for
any real page size, i.e. at least 2 bytes). -/
theorem calculate_overflow_rejected (pageSize n p : Nat) (gb : Bool)
    (hp : 2 ≤ pageSize) :
    ∃ e, calculate pageSize ⟨usizeMax, n, p, usizeMax, gb⟩ = Except.error e := by
  refine ⟨"slot size is too large", ?_⟩
  have hnz : ¬((usizeMax : Nat) = 0 ∨ (usizeMax : Nat) = 0) := by
    unfold usizeMax
    omega
  by_cases hp2 : p < 2
  · have h1 : numStripesAndGuard ⟨usizeMax, n, p, usizeMax, gb⟩ = (1, usizeMax) := by
      unfold numStripesAndGuard
      rw [if_neg hnz, if_pos hp2]
    have h2 : checkedAdd usizeMax usizeMax = none := by
      unfold checkedAdd usizeMax
      norm_num
    simp only [calculate, h1, h2]
  · have hs : stripedNumStripes ⟨usizeMax, n, p, usizeMax, gb⟩ = 2 := by
      unfold stripedNumStripes neededNumStripes
      dsimp only
      rw [Nat.div_self (by unfold usizeMax; omega), Nat.mod_self]
      norm_num [wadd]
      omega
    have hov : stripedOverlapBytes ⟨usizeMax, n, p, usizeMax, gb⟩ = usizeMax := by
      unfold stripedOverlapBytes
      rw [hs]
      have hw : wsub 2 1 = 1 := by decide
      rw [hw]
      have hm : checkedMul usizeMax 1 = some usizeMax := by
        unfold checkedMul
        simp
      rw [hm]
      rfl
    have hng : stripedNeededGuard ⟨usizeMax, n, p, usizeMax, gb⟩ = 0 := by
      unfold stripedNeededGuard
      rw [hov, checkedSub_getD_zero]
      dsimp only
      omega
    have h1 : numStripesAndGuard ⟨usizeMax, n, p, usizeMax, gb⟩ = (2, 0) := by
      unfold numStripesAndGuard
      rw [if_neg hnz, if_neg hp2, hs, hng]
    have h2 : checkedAdd usizeMax 0 = some usizeMax := by
      unfold checkedAdd
      simp
    have h3 : checkedAdd usizeMax (pageSize - 1) = none := by
      unfold checkedAdd usizeMax
      rw [if_neg]
      omega
    simp only [calculate, h1, h2, h3]

/-- Witness for claim C8 at a concrete page size, slot count and pkey count. -/
theorem calculate_overflow_rejected_witness :
    ∃ e, calculate 4096 ⟨usizeMax, 5, 3, usizeMax, true⟩ = Except.error e :=
  calculate_overflow_rejected 4096 5 3 true (by omega)

/-- Conversion from a stripe-local slot index to the pool-wide allocation
index (`StripedAllocationIndex::as_unstriped_slot_index`, memory_pool.rs
lines 487-491): `self.0 * num_stripes + stripe` in `u32` arithmetic,
modelled with explicit 32-bit wrap-around. -/
def as_unstriped_slot_index (striped stripe num_stripes : Nat) : Nat :=
  (striped * num_stripes + stripe) % 2 ^ 32

/-- Stripe recovered from an allocation index in `MemoryPool::deallocate`
(memory_pool.rs line 381): `allocation_index.index() % self.stripes.len()`. -/
def deallocate_stripe_index (allocation_index num_stripes : Nat) : Nat :=
  allocation_index % num_stripes

/-- Slot id handed back to the stripe allocator by `MemoryPool::deallocate`
(memory_pool.rs line 384): the source passes `SlotId(allocation_index.0)`,
i.e. the raw pool-wide index, not a stripe-local one. -/
def deallocate_freed_slot_id (allocation_index _num_stripes : Nat) : Nat :=
  allocation_index

/-- Number of slots given to stripe `i` by `MemoryPool::new` (memory_pool.rs
lines 180-181): `num_memory_slots / num_stripes +
usize::from(num_memory_slots % num_stripes > i)`. -/
def stripeNumSlots (num_memory_slots num_stripes i : Nat) : Nat :=
  num_memory_slots / num_stripes +
    (if num_memory_slots % num_stripes > i then 1 else 0)

/-- Valid striped pairs give allocation indices below the pool capacity. -/
theorem striped_lt_capacity (striped stripe n s : Nat)
    (hstripe : stripe < s) (hstriped : striped < stripeNumSlots n s stripe) :
    striped * s + stripe < n := by
  have hs0 : 0 < s := by omega
  have hdm := Nat.div_add_mod n s
  unfold stripeNumSlots at hstriped
  by_cases hr : n % s > stripe
  · rw [if_pos hr] at hstriped
    have h1 : striped ≤ n / s := by omega
    have h2 : striped * s ≤ n / s * s := Nat.mul_le_mul_right _ h1
    rw [Nat.mul_comm (n / s) s] at h2
    omega
  · rw [if_neg hr] at hstriped
    have h1 : striped + 1 ≤ n / s := by omega
    have h2 : (striped + 1) * s ≤ n / s * s := Nat.mul_le_mul_right _ h1
    rw [Nat.add_mul, Nat.one_mul, Nat.mul_comm (n / s) s] at h2
    omega

/-- Claim C7: for every stripe `stripe < num_stripes` and stripe-local index
`striped < slots_in_stripe(stripe)` of a pool with `u32`-sized capacity, the
conversion `allocation = striped * num_stripes + stripe` followed by
`stripe = allocation % num_stripes`, `striped = allocation / num_stripes`
round-trips exactly: the two index types are in bijection. -/
theorem striped_index_bijection (striped stripe n s : Nat)
    (hn : n < 2 ^ 32) (hstripe : stripe < s)
    (hstriped : striped < stripeNumSlots n s stripe) :
    deallocate_stripe_index (as_unstriped_slot_index striped stripe s) s = stripe ∧
      as_unstriped_slot_index striped stripe s / s = striped := by
  have hlt : striped * s + stripe < n := striped_lt_capacity _ _ _ _ hstripe hstriped
  have ha : as_unstriped_slot_index striped stripe s = striped * s + stripe := by
    unfold as_unstriped_slot_index
    exact Nat.mod_eq_of_lt (by omega)
  constructor
  · rw [deallocate_stripe_index, ha, Nat.mul_comm striped s, Nat.mul_add_mod]
    exact Nat.mod_eq_of_lt hstripe
  · rw [ha, Nat.mul_comm striped s, Nat.mul_add_div (by omega),
      Nat.div_eq_of_lt hstripe]
    omega

/-- Witness for claim C7: pool of 5 slots over 2 stripes, stripe 1 holds
slot ids 0 and 1; striped id 1 maps to allocation index 3 and back. -/
theorem striped_index_bijection_witness :
    deallocate_stripe_index (as_unstriped_slot_index 1 1 2) 2 = 1 ∧
      as_unstriped_slot_index 1 1 2 / 2 = 1 :=
  striped_index_bijection 1 1 5 2 (by omega) (by omega) (by decide)

/-- The `pkru::DISABLE_ACCESS` mask (mpk.rs line 485): every `AD`/`WD` bit
set, so access to every key is disabled. -/
def DISABLE_ACCESS : Nat := 0xFFFFFFFF

/-- The `PKRU` value written by `Pkey::activate` for a key with raw id
`key_id` (mpk.rs lines 129-135): `DISABLE_ACCESS ^ (0b11 | (0b11 <<
(key_id * 2)))`, with the `u32` shift result reduced modulo `2 ^ 32`. -/
def activatePkruValue (key_id : Nat) : Nat :=
  DISABLE_ACCESS ^^^ (0b11 ||| ((0b11 <<< (key_id * 2)) % 2 ^ 32))

/-- Claim C9: activating a key with raw id `k` (1 ≤ k ≤ 15) writes to PKRU
exactly `DISABLE_ACCESS` with the four bits `AD0`, `WD0`, `ADk`, `WDk`
cleared (bit `2*j` is `ADj` and bit `2*j + 1` is `WDj`): keys 0 and `k` get
both bits cleared and every other key keeps both bits set. -/
theorem activate_pkru_bits (k j : Nat) (hk1 : 1 ≤ k) (hk2 : k ≤ 15)
    (hj : j ≤ 15) :
    (Nat.testBit (activatePkruValue k) (2 * j) = false ↔ (j = 0 ∨ j = k)) ∧
      (Nat.testBit (activatePkruValue k) (2 * j + 1) = false ↔ (j = 0 ∨ j = k)) := by
  have h : ∀ k' < 16, 1 ≤ k' → ∀ j' < 16,
      ((Nat.testBit (activatePkruValue k') (2 * j') = false ↔ (j' = 0 ∨ j' = k')) ∧
        (Nat.testBit (activatePkruValue k') (2 * j' + 1) = false ↔ (j' = 0 ∨ j' = k'))) := by
    decide
  exact h k (by omega) hk1 j (by omega)

/-- Witness for claim C9 at key id 3 and key index 5: bits `AD3`, `WD3` are
cleared while bits `AD5`, `WD5` stay set. -/
theorem activate_pkru_bits_witness :
    ((Nat.testBit (activatePkruValue 3) (2 * 3) = false ↔ ((3 : Nat) = 0 ∨ (3 : Nat) = 3)) ∧
      (Nat.testBit (activatePkruValue 3) (2 * 3 + 1) = false ↔ ((3 : Nat) = 0 ∨ (3 : Nat) = 3))) ∧
    ((Nat.testBit (activatePkruValue 3) (2 * 5) = false ↔ ((5 : Nat) = 0 ∨ (5 : Nat) = 3)) ∧
      (Nat.testBit (activatePkruValue 3) (2 * 5 + 1) = false ↔ ((5 : Nat) = 0 ∨ (5 : Nat) = 3))) :=
  ⟨activate_pkru_bits 3 3 (by omega) (by omega) (by omega),
    activate_pkru_bits 3 5 (by omega) (by omega) (by omega)⟩

/-- Claim C1, evaluated at the failing input: in a two-stripe pool, a memory
allocated from stripe 1 at stripe-local slot id 0 gets allocation index
`0 * 2 + 1 = 1`; `deallocate` then frees slot id 1 (the raw pool-wide index)
in stripe `1 % 2 = 1`, not the stripe-local id `1 / 2 = 0` that `allocate`
obtained from that stripe's allocator. -/
theorem deallocate_frees_unstriped_id :
    as_unstriped_slot_index 0 1 2 = 1 ∧
      deallocate_stripe_index 1 2 = 1 ∧
      deallocate_freed_slot_id 1 2 = 1 ∧
      (1 : Nat) / 2 = 0 ∧
      deallocate_freed_slot_id 1 2 ≠ 1 / 2 := by
  decide

/-- Slot capacities of the stripes built by `MemoryPool::new` (memory_pool.rs
lines 179-197): the source maps `create_stripe` over
`pkeys.into_iter().take(layout.num_stripes).enumerate()`, so the number of
stripes built is `min num_pkeys num_stripes`.  Modelled from the spec: the
per-stripe `ModuleAffinityIndexAllocator` is not among these sources; per
spec section 4.F a freshly built stripe allocator with `num_slots` slots
reports `num_empty_slots() = num_slots`, so we record each stripe's slot
count. -/
def newStripeSlotCounts (num_pkeys num_stripes num_memory_slots : Nat) : List Nat :=
  (List.range (min num_pkeys num_stripes)).map
    (fun i => stripeNumSlots num_memory_slots num_stripes i)

/-- Claim C2, evaluated at the failing input: with zero protection keys
available (MPK disabled or unsupported) and `total_memories = 5`, the layout
picks one stripe, but `MemoryPool::new` builds its stripes from the empty
pkey list, producing zero stripe allocators and zero total empty slots
instead of one stripe allocator holding all five slots. -/
theorem new_zero_pkeys_builds_no_stripes :
    calculate 4096 ⟨65536, 5, 0, 0, false⟩ =
        Except.ok ⟨327680, 0, 0, 65536, 1⟩ ∧
      newStripeSlotCounts 0 1 5 = [] ∧
      (newStripeSlotCounts 0 1 5).length ≠ 1 ∧
      (newStripeSlotCounts 0 1 5).sum ≠ 5 := by
  exact ⟨by rfl, by rfl, by decide, by decide⟩

/-- Bookkeeping state of the memory pool: per-stripe lists of free flags for
each stripe-local slot id, and per-pool-slot image cells (`true` models a
`Some(MemoryImageSlot)` entry, `false` models `None`). -/
structure PoolState where
  stripes : List (List Bool)
  entries : List Bool
deriving DecidableEq, Repr

/-- Freshly constructed pool bookkeeping: every stripe-local slot is free and
every image cell is `None` (`MemoryPool::new` builds the image slots with
`Mutex::new(None)`, memory_pool.rs lines 175-177). -/
def initPoolState (num_stripes num_memory_slots : Nat) : PoolState :=
  { stripes := (List.range num_stripes).map
      (fun i => List.replicate (stripeNumSlots num_memory_slots num_stripes i) true)
    entries := List.replicate num_memory_slots false }

/-- Success path of `MemoryPool::allocate` (memory_pool.rs lines 277-361) on
the chosen stripe: take a free stripe-local slot, convert it with
`as_unstriped_slot_index`, and take the image slot at the allocation index
(the cell becomes `None` while the memory is in use).  Modelled from the
spec: the stripe's `ModuleAffinityIndexAllocator` (not among these sources)
pops the lowest free slot id, per the determinism rule of spec section 4.F;
`instantiate` is modelled as succeeding. -/
def allocateOp (st : PoolState) (stripe : Nat) : Option (PoolState × Nat) :=
  match (st.stripes.getD stripe []).findIdx? (fun b => b) with
  | none => none
  | some striped =>
    let a := striped * st.stripes.length + stripe
    some ({ stripes := st.stripes.set stripe
              ((st.stripes.getD stripe []).set striped false)
            entries := st.entries.set a false }, a)

/-- Success path of `MemoryPool::deallocate` (memory_pool.rs lines 370-385):
`clear_and_remain_ready` succeeds so the image slot is returned to cell
`allocation_index`, then the stripe `allocation_index % num_stripes` is told
to free slot id `allocation_index` — the raw pool-wide index, exactly as the
source's `free(SlotId(allocation_index.0))` does.  Modelled from the spec:
`free` on the stripe allocator (not among these sources) marks the given
slot id free. -/
def deallocateOp (st : PoolState) (a : Nat) : PoolState :=
  let stripe := a % st.stripes.length
  { stripes := st.stripes.set stripe ((st.stripes.getD stripe []).set a true)
    entries := st.entries.set a true }

/-- Is pool slot `a` free in its (unique) stripe allocator?  Slot `a` lives
in stripe `a % num_stripes` under stripe-local id `a / num_stripes`. -/
def slotIsFree (st : PoolState) (a : Nat) : Bool :=
  (st.stripes.getD (a % st.stripes.length) []).getD (a / st.stripes.length) false

/-- Is the image-slot cell of pool slot `a` equal to `None` (taken out)? -/
def imageSlotIsNone (st : PoolState) (a : Nat) : Bool :=
  !(st.entries.getD a false)

/-- Claim C3, evaluated at the failing input: a two-stripe pool with four
slots.  At the fresh pool, slot 0 is free and its image cell is `None` at
the same time, contradicting the claimed exclusivity; worse, after
allocating from stripe 1 (allocation index 1) and deallocating index 1, the
mis-striped free leaves slot 1 neither free in its stripe allocator nor with
a `None` image cell. -/
theorem slot_state_invariant_violated :
    (slotIsFree (initPoolState 2 4) 0 = true ∧
      imageSlotIsNone (initPoolState 2 4) 0 = true) ∧
    allocateOp (initPoolState 2 4) 1 =
      some (⟨[[true, true], [false, true]], [false, false, false, false]⟩, 1) ∧
    slotIsFree
      (deallocateOp ⟨[[true, true], [false, true]], [false, false, false, false]⟩ 1) 1
      = false ∧
    imageSlotIsNone
      (deallocateOp ⟨[[true, true], [false, true]], [false, false, false, false]⟩ 1) 1
      = false := by
  decide

/-- Result of `Pkey::new` (mpk.rs lines 90-98): when MPK is supported it
wraps the kernel's `pkey_alloc` reply in `Pkey(Some(key_id))`; when MPK is
unsupported it returns `Ok(Pkey(None))` — it never fails. -/
def pkeyNew (supported : Bool) (allocReply : Except Unit Nat) :
    Except Unit (Option Nat) :=
  if supported then
    match allocReply with
    | Except.ok key_id => Except.ok (some key_id)
    | Except.error e => Except.error e
  else
    Except.ok none

/-- The collection loop inside `keys()` (mpk.rs lines 42-49):
`while let Ok(pkey) = Pkey::new() { allocated.push(..) }` stops only when
`Pkey::new` fails.  `allocReplies i` is the kernel's reply to the `i`-th
`pkey_alloc` call; `fuel` bounds how many iterations we unfold, and `none`
means the loop has not terminated within `fuel` iterations. -/
def keysLoop (supported : Bool) (allocReplies : Nat → Except Unit Nat) :
    Nat → List (Option Nat) → Option (List (Option Nat))
  | 0, _ => none
  | fuel + 1, acc =>
    match pkeyNew supported (allocReplies acc.length) with
    | Except.ok pkey => keysLoop supported allocReplies fuel (acc ++ [pkey])
    | Except.error _ => some acc

/-- Claim C4, refuted on the code: when MPK is unsupported, `Pkey::new`
always returns `Ok(Pkey(None))`, so the `while let Ok(..)` loop in `keys()`
never terminates — for every kernel behaviour and every iteration budget the
loop is still running, instead of returning an empty slice. -/
theorem keys_unsupported_never_returns (allocReplies : Nat → Except Unit Nat)
    (fuel : Nat) (acc : List (Option Nat)) :
    keysLoop false allocReplies fuel acc = none := by
  induction fuel generalizing acc with
  | zero => rfl
  | succ n ih => exact ih (acc ++ [none])

/-- Page size of a WebAssembly linear memory (`WASM_PAGE_SIZE`). -/
def WASM_PAGE_SIZE : Nat := 65536

/-- Style of a memory plan (`MemoryStyle`): a static plan carries its bound
in wasm pages. -/
inductive MemoryStyle where
  | static (bound : Nat)
  | dynamic
deriving DecidableEq, Repr

/-- A memory plan as read by `validate` and `allocate`: its style and the
declared minimum size in pages (the source reads `plan.memory.minimum`; the
nested `memory` record is inlined here). -/
structure MemoryPlanM where
  style : MemoryStyle
  minimum : Nat
deriving DecidableEq, Repr

/-- The part of a module that `validate` inspects: its memory plans and how
many of them are imported. -/
structure ModuleM where
  memory_plans : List MemoryPlanM
  num_imported_memories : Nat
deriving DecidableEq, Repr

/-- The pool fields read by `validate` and by the assert in `allocate`. -/
structure PoolLimits where
  memory_size : Nat
  max_accessible : Nat
  memories_per_instance : Nat
deriving DecidableEq, Repr

/-- Per-plan checks of `MemoryPool::validate` (memory_pool.rs lines 237-262):
for a static plan, fail when `memory_size < bound` (the source compares the
bound, in pages, directly against `memory_size`, in bytes); then fail when
the declared minimum exceeds `max_accessible / WASM_PAGE_SIZE`. -/
def validatePlans (p : PoolLimits) : List MemoryPlanM → Except String Unit
  | [] => Except.ok ()
  | plan :: rest =>
    let staticTooBig :=
      match plan.style with
      | MemoryStyle.static bound => decide (p.memory_size < bound)
      | MemoryStyle.dynamic => false
    if staticTooBig then
      Except.error "memory size allocated per-memory is too small to satisfy static bound"
    else if plan.minimum > p.max_accessible / WASM_PAGE_SIZE then
      Except.error "memory minimum page size exceeds the limit"
    else
      validatePlans p rest

/-- The whole of `MemoryPool::validate` (memory_pool.rs lines 227-264):
bound the number of defined memories by `memories_per_instance`, then run
the per-plan checks on the non-imported plans. -/
def validate (p : PoolLimits) (m : ModuleM) : Except String Unit :=
  let memories := m.memory_plans.length - m.num_imported_memories
  if memories > p.memories_per_instance then
    Except.error "defined memories count exceeds the per-instance limit"
  else
    validatePlans p (m.memory_plans.drop m.num_imported_memories)

/-- The static-bound assertion inside `allocate` (memory_pool.rs lines
314-319): `bound * WASM_PAGE_SIZE <= memory_size` for a static plan,
vacuously true for a dynamic plan. -/
def allocateStaticBoundOk (p : PoolLimits) (plan : MemoryPlanM) : Bool :=
  match plan.style with
  | MemoryStyle.static bound => decide (bound * WASM_PAGE_SIZE ≤ p.memory_size)
  | MemoryStyle.dynamic => true

/-- Claim C5, evaluated at the failing input: a pool with
`memory_size = 65536` bytes accepts a module whose single defined memory has
a static bound of 2 pages (`validate` compares the bound in pages against
`memory_size` in bytes and sees `65536 < 2` as false), yet the assert in
`allocate` computes `2 * WASM_PAGE_SIZE = 131072 > 65536` and fails. -/
theorem validate_accepts_yet_allocate_assert_fails :
    validate ⟨65536, 65536, 1⟩ ⟨[⟨MemoryStyle.static 2, 0⟩], 0⟩ = Except.ok () ∧
      allocateStaticBoundOk ⟨65536, 65536, 1⟩ ⟨MemoryStyle.static 2, 0⟩ = false :=
  ⟨by rfl, by rfl⟩

end MemPool
